import Mathlib

/-!
# vault-find: verified model of the folder-scoped document store and coordinator

Shallow embedding of `src/app/repository.py` (the Store) and
`src/app/services.py` (the Coordinator) from the vault-find repository.

Conventions of the embedding:
* Python `str` is `String`; timestamps and uuids are opaque strings supplied
  as explicit parameters (`now`, fresh ids) since `datetime.utcnow()` /
  `uuid4()` are nondeterministic inputs.
* JSON records read from disk may miss keys that `dict.setdefault` would fill,
  so raw (on-disk) entities carry `Option String` for `folder_name`,
  `folder_id` and `created_at`; raw folders carry `Option String` for
  `created_at` (cf. `list_folders`'s `folder.setdefault("created_at", ...)`).
* `ValueError`s raised by the Python code are mapped to a `VaultError`
  datatype following the spec's taxonomy (`NotFound`, `ValidationError`,
  `NotEmptyError`).
* Fallible operations return `Except VaultError`; an error result models the
  Python exception propagating before any write, so the stored document is
  unchanged in that case.
-/

namespace VaultFind

/-- Python `str.lower()` (ASCII case mapping, which covers the repository's
folder names; `String.toLower` itself does not reduce in the kernel). -/
def pyLower (s : String) : String := ⟨s.data.map Char.toLower⟩

/-- Python `str.strip()`: drop leading and trailing whitespace. -/
def pyStrip (s : String) : String :=
  ⟨((s.data.dropWhile Char.isWhitespace).reverse.dropWhile Char.isWhitespace).reverse⟩

/-- Python's `for idx, x in enumerate(l): if p x: ...` first-match index, also
the meaning of `List.findIdx?` but in a directly-inductive form. -/
def pyFindIdx {α : Type} (p : α → Bool) : List α → Option Nat
  | [] => none
  | a :: l => if p a then some 0 else (pyFindIdx p l).map (· + 1)

/-- Error taxonomy: `ValueError("... not found")` ↦ `notFound`,
`ValueError("Folder name cannot be empty")` ↦ `validation`,
`ValueError("Folder must be empty before deletion")` ↦ `notEmpty`. -/
inductive VaultError where
  | notFound
  | validation
  | notEmpty
deriving DecidableEq, Repr

/-- `models.EntityBase`: the payload for add/update. -/
structure EntityBase where
  title : String
  description : String
  data_type : String
  data : String
  folder_name : String
deriving DecidableEq, Repr

/-- `models.Entity`: a fully hydrated entity as returned by the API. -/
structure Entity where
  id : String
  title : String
  description : String
  data_type : String
  data : String
  folder_name : String
  folder_id : String
  created_at : String
deriving DecidableEq, Repr

/-- An entity record as stored in the JSON document; `folder_name`,
`folder_id` and `created_at` may be absent (legacy records). -/
structure RawEntity where
  id : String
  title : String
  description : String
  data_type : String
  data : String
  folder_name : Option String
  folder_id : Option String
  created_at : Option String
deriving DecidableEq, Repr

/-- A folder record as stored in the JSON document. -/
structure RawFolder where
  id : String
  name : String
  created_at : Option String
  entities : List RawEntity
deriving DecidableEq, Repr

instance : Inhabited RawFolder := ⟨⟨"", "", none, []⟩⟩

/-- The current-schema on-disk document: `{"folders": [...]}`. -/
structure Doc where
  folders : List RawFolder
deriving DecidableEq, Repr

/-- `models.FolderWithEntities` as returned by `list_folders`. -/
structure FolderWithEntities where
  id : String
  name : String
  created_at : String
  entities : List Entity
deriving DecidableEq, Repr

/-- `EntityRepository._hydrate_entity`: fill missing `folder_id`,
`folder_name`, `created_at` from the containing folder / current time. -/
def hydrateEntity (f : RawFolder) (now : String) (r : RawEntity) : Entity :=
  { id := r.id
    title := r.title
    description := r.description
    data_type := r.data_type
    data := r.data
    folder_name := r.folder_name.getD f.name
    folder_id := r.folder_id.getD f.id
    created_at := r.created_at.getD now }

/-- `EntityRepository.list_folders` (on an already-read document). -/
def listFolders (d : Doc) (now : String) : List FolderWithEntities :=
  d.folders.map fun f =>
    { id := f.id
      name := f.name
      created_at := f.created_at.getD now
      entities := f.entities.map (hydrateEntity f now) }

/-- `EntityRepository.list_entities`: flat projection over `list_folders`. -/
def listEntities (d : Doc) (now : String) : List Entity :=
  (listFolders d now).foldr (fun f acc => f.entities ++ acc) []

/-- `EntityRepository.get_entity`: first entity with the given id, scanning
folders in order and entities in list order. -/
def getEntity (d : Doc) (now : String) (eid : String) : Option Entity :=
  (listEntities d now).find? (fun e => e.id == eid)

instance : Inhabited RawEntity := ⟨⟨"", "", "", "", "", none, none, none⟩⟩

/-- `Entity.model_dump(mode="json")`: every field is present in the stored
record (timestamps serialize to their ISO string, the identity here). -/
def rawOfEntity (e : Entity) : RawEntity :=
  ⟨e.id, e.title, e.description, e.data_type, e.data,
   some e.folder_name, some e.folder_id, some e.created_at⟩

/-- `EntityRepository._get_or_create_folder`: trim the requested name, reject
empty, case-insensitively scan for the first match, else append a fresh
folder. Returns the (possibly extended) document and the index of the
resolved or created folder; `freshId`/`now` model `uuid4()` and
`datetime.utcnow()`. -/
def getOrCreateFolder (d : Doc) (folderName : String) (freshId now : String) :
    Except VaultError (Doc × Nat) :=
  let norm := pyStrip folderName
  if norm = "" then .error .validation
  else
    match pyFindIdx (fun f => pyLower f.name == pyLower norm) d.folders with
    | some i => .ok (d, i)
    | none =>
      .ok (⟨d.folders ++ [⟨freshId, norm, some now, []⟩]⟩, d.folders.length)

/-- `EntityRepository.add_entity`. `eid`/`freshFolderId` model `uuid4()` and
`now` models `datetime.utcnow()`. Note `Entity(folder_id=folder["id"],
**data.model_dump())`: the stored entity's `folder_name` is the payload's
`folder_name` verbatim, not the resolved folder's stored name. -/
def addEntity (d : Doc) (p : EntityBase) (eid freshFolderId now : String) :
    Except VaultError (Doc × Entity) :=
  match getOrCreateFolder d p.folder_name freshFolderId now with
  | .error err => .error err
  | .ok (d1, i) =>
    let f := d1.folders.getD i default
    let e : Entity :=
      { id := eid, title := p.title, description := p.description
        data_type := p.data_type, data := p.data
        folder_name := p.folder_name, folder_id := f.id, created_at := now }
    .ok (⟨d1.folders.set i { f with entities := f.entities ++ [rawOfEntity e] }⟩, e)

/-- `EntityRepository.delete_entity`: every folder's entity list is filtered.
Returns the resulting document, whether anything was removed, and whether the
file was rewritten (`_write_raw` runs only when something was removed; when
nothing matched the stored document is untouched). -/
def deleteEntity (d : Doc) (eid : String) : Doc × Bool × Bool :=
  if d.folders.any (fun f => f.entities.any (fun e => e.id == eid)) then
    (⟨d.folders.map fun f => { f with entities := f.entities.filter (fun e => e.id != eid) }⟩,
     true, true)
  else (d, false, false)

/-- `EntityRepository.delete_folder`: find the first folder with the given id;
raise `NotEmptyError` if it has entities, else remove it; `NotFound` if no
folder matches. An error result models the exception propagating before any
write, leaving the stored document unchanged. -/
def deleteFolder (d : Doc) (fid : String) : Except VaultError Doc :=
  match pyFindIdx (fun f => f.id == fid) d.folders with
  | none => .error .notFound
  | some i =>
    if (d.folders.getD i default).entities ≠ [] then .error .notEmpty
    else .ok ⟨d.folders.eraseIdx i⟩

/-- The `update_entity` locate loop: first folder containing the id, and the
first index of the entity inside that folder. -/
def findEntityLoc : List RawFolder → String → Option (Nat × Nat)
  | [], _ => none
  | f :: rest, eid =>
    match pyFindIdx (fun e => e.id == eid) f.entities with
    | some j => some (0, j)
    | none => (findEntityLoc rest eid).map (fun q => (q.1 + 1, q.2))

/-- `EntityRepository.update_entity`. `freshFolderId` models the `uuid4()`
used when a new target folder must be created, `now` the `utcnow()`
fall-backs. The move branch fires only when the trimmed payload folder name
is non-empty AND differs case-insensitively from the current folder's name;
the entity is then popped from the source folder and appended to the target.
Otherwise every field is rewritten in place at the same position (with
`folder_name`/`folder_id` taken from the current folder). `created_at` is
carried over from the stored record. -/
def updateEntity (d : Doc) (eid : String) (p : EntityBase) (freshFolderId now : String) :
    Except VaultError (Doc × Entity) :=
  match findEntityLoc d.folders eid with
  | none => .error .notFound
  | some (ci, ei) =>
    let cf := d.folders.getD ci default
    let cur := cf.entities.getD ei default
    let desired := pyStrip p.folder_name
    if desired ≠ "" ∧ pyLower desired ≠ pyLower cf.name then
      match getOrCreateFolder d desired freshFolderId now with
      | .error err => .error err
      | .ok (d1, ti) =>
        -- `_get_or_create_folder` only appends, so the source folder is still
        -- `cf` at index `ci` in `d1`; the pop happens there.
        let folders2 := d1.folders.set ci { cf with entities := cf.entities.eraseIdx ei }
        let tf := folders2.getD ti default
        let e' : Entity :=
          { id := eid, title := p.title, description := p.description
            data_type := p.data_type, data := p.data
            folder_name := tf.name, folder_id := tf.id
            created_at := cur.created_at.getD now }
        .ok (⟨folders2.set ti { tf with entities := tf.entities ++ [rawOfEntity e'] }⟩, e')
    else
      let e' : Entity :=
        { id := eid, title := p.title, description := p.description
          data_type := p.data_type, data := p.data
          folder_name := cf.name, folder_id := cf.id
          created_at := cur.created_at.getD now }
      .ok (⟨d.folders.set ci { cf with entities := cf.entities.set ei (rawOfEntity e') }⟩, e')

/-- `models.VaultExport`. -/
structure VaultExport where
  schema_version : String
  exported_at : String
  folders : List FolderWithEntities
deriving DecidableEq, Repr

/-- `EntityRepository.export_vault`: snapshot of `list_folders`; `now` is the
hydration clock, `exportedAt` the envelope's generated timestamp. -/
def exportVault (d : Doc) (now exportedAt : String) : VaultExport :=
  ⟨"1.0", exportedAt, listFolders d now⟩

/-- `EntityRepository._serialize_entity_for_folder`: dump the entity and force
`folder_id`/`folder_name` to the containing folder's values. -/
def serializeEntityForFolder (e : Entity) (f : FolderWithEntities) : RawEntity :=
  { rawOfEntity e with folder_id := some f.id, folder_name := some f.name }

/-- `EntityRepository._serialize_folder`. -/
def serializeFolder (f : FolderWithEntities) : RawFolder :=
  ⟨f.id, f.name, some f.created_at, f.entities.map (fun e => serializeEntityForFolder e f)⟩

/-- `EntityRepository.replace_all`: the document is replaced wholesale. -/
def replaceAll (fs : List FolderWithEntities) : Doc := ⟨fs.map serializeFolder⟩

/-- `EntityRepository.import_vault`. -/
def importVault (v : VaultExport) : Doc := replaceAll v.folders

/-- What the storage file can parse to, as far as `_read_raw` distinguishes:
absent file, blank content, a bare JSON list (legacy), a JSON object without
a `"folders"` key (legacy), or a current-schema document. -/
inductive StoredFile where
  | missing
  | blank
  | jsonList (entities : List RawEntity)
  | jsonNoFolders
  | jsonDoc (d : Doc)
deriving DecidableEq, Repr

/-- `EntityRepository.DEFAULT_FOLDER_NAME`. -/
def DEFAULT_FOLDER_NAME : String := "General"

/-- `EntityRepository._migrate_list_to_folders`: wrap the legacy list as one
implicit folder; each entity's `folder_name`/`folder_id`/`created_at` are
`setdefault`-ed, i.e. filled only when absent. -/
def migrateListToFolders (legacy : List RawEntity) (freshFolderId now : String) : Doc :=
  ⟨[⟨freshFolderId, DEFAULT_FOLDER_NAME, some now,
     legacy.map fun e =>
       { e with folder_name := some (e.folder_name.getD DEFAULT_FOLDER_NAME)
                folder_id := some (e.folder_id.getD freshFolderId)
                created_at := some (e.created_at.getD now) }⟩]⟩

/-- `EntityRepository._read_raw`: parse, migrate legacy shapes, and (when
`persistMigration` is set and a migration or blank-default happened) write the
migrated shape back. Returns the document and the file contents written back,
if any. -/
def readRaw (file : StoredFile) (persistMigration : Bool) (freshFolderId now : String) :
    Doc × Option StoredFile :=
  match file with
  | .missing => (⟨[]⟩, none)
  | .blank => (⟨[]⟩, if persistMigration then some (.jsonDoc ⟨[]⟩) else none)
  | .jsonList l =>
    let m := migrateListToFolders l freshFolderId now
    (m, if persistMigration then some (.jsonDoc m) else none)
  | .jsonNoFolders => (⟨[]⟩, if persistMigration then some (.jsonDoc ⟨[]⟩) else none)
  | .jsonDoc d => (d, none)

/-- `models.SearchMatch`: the only shape search results take; it has no
`data` field by construction. -/
structure SearchMatch where
  entity_id : String
  title : String
  folder_name : String
  data_type : String
deriving DecidableEq, Repr

/-- `SearchMatch(entity_id=entity.id, ...)` in `search_entities`: built from
the entity's current stored fields. -/
def mkSearchMatch (e : Entity) : SearchMatch := ⟨e.id, e.title, e.folder_name, e.data_type⟩

/-- The dedup/drop loop of `EntityService.search_entities`, over the
`entity_id` metadata of the Index's ranked hits (`doc.metadata.get` yields
`none` when the key is absent, and Python's `if not entity_id` also skips the
empty string). `seen` is the loop's `set()`. -/
def searchLoop (d : Doc) (now : String) : List (Option String) → List String → List SearchMatch
  | [], _ => []
  | hit :: rest, seen =>
    match hit with
    | none => searchLoop d now rest seen
    | some eid =>
      if eid = "" ∨ eid ∈ seen then searchLoop d now rest seen
      else
        match getEntity d now eid with
        | none => searchLoop d now rest seen
        | some e => mkSearchMatch e :: searchLoop d now rest (eid :: seen)

/-- `EntityService.search_entities` after the Index returned `hits`. -/
def searchEntities (d : Doc) (now : String) (hits : List (Option String)) : List SearchMatch :=
  searchLoop d now hits []

/-- `EntityService._format_document`: the text fed to the Index. -/
def formatDocument (e : Entity) : String :=
  "Title: " ++ e.title ++ "\n" ++ "Description: " ++ e.description ++ "\n" ++
    "Folder: " ++ e.folder_name ++ "\n" ++ "Type: " ++ e.data_type ++ "\n"

/-- The metadata dict fed to the Index by `EntityService._metadata`. -/
structure IndexMetadata where
  entity_id : String
  title : String
  data_type : String
  folder : String
deriving DecidableEq, Repr

/-- `EntityService._metadata`. -/
def metadataOf (e : Entity) : IndexMetadata := ⟨e.id, e.title, e.data_type, e.folder_name⟩

/-! ## Invariants and concrete example data -/

/-- The ids of the folders of a document. -/
def folderIds (d : Doc) : List String := d.folders.map RawFolder.id

/-- Referential invariant (spec §3, first half): every stored entity's
`folder_id` — as it hydrates, i.e. defaulting to the containing folder's id —
names a folder of the document. -/
def entityFolderRefsOK (d : Doc) : Prop :=
  ∀ f ∈ d.folders, ∀ e ∈ f.entities, e.folder_id.getD f.id ∈ folderIds d

/-- Full denormalization invariant (spec §3): every stored entity resolves to
a folder of the document whose stored name equals the entity's denormalized
`folder_name`. -/
def entityFolderNamesOK (d : Doc) : Prop :=
  ∀ f ∈ d.folders, ∀ e ∈ f.entities, ∃ g ∈ d.folders,
    g.id = e.folder_id.getD f.id ∧ g.name = e.folder_name.getD f.name

/-- Example payload naming its folder in lower case. -/
def exPayloadLower : EntityBase := ⟨"AWS Key", "d1", "link", "k1", "aws"⟩

/-- Example payload naming the same folder in upper case. -/
def exPayloadUpper : EntityBase := ⟨"Note", "d2", "note", "k2", "AWS"⟩

/-- The store reached by adding `exPayloadLower` to an empty store
(entity id `e1`, folder id `f1`, clock `t1`). -/
def exDocA : Doc := ⟨[⟨"f1", "aws", some "t1",
  [⟨"e1", "AWS Key", "d1", "link", "k1", some "aws", some "f1", some "t1"⟩]⟩]⟩

/-- The store reached by then adding `exPayloadUpper` (entity id `e2`,
clock `t2`): one folder named `aws` holding both entities, the second stored
with the payload's verbatim `folder_name` `AWS`. -/
def exDocB : Doc := ⟨[⟨"f1", "aws", some "t1",
  [⟨"e1", "AWS Key", "d1", "link", "k1", some "aws", some "f1", some "t1"⟩,
   ⟨"e2", "Note", "d2", "note", "k2", some "AWS", some "f1", some "t2"⟩]⟩]⟩

/-- A store whose single folder holds two entities that share the id `a`
(such documents are constructible through `replace_all`, i.e. import). -/
def exDocDup : Doc := ⟨[⟨"f1", "g", some "t",
  [⟨"a", "first", "dx", "note", "x", some "g", some "f1", some "t0"⟩,
   ⟨"a", "second", "dx", "note", "x", some "g", some "f1", some "t0"⟩]⟩]⟩

instance {ε α : Type} [DecidableEq ε] [DecidableEq α] : DecidableEq (Except ε α) := fun x y =>
  match x, y with
  | .error a, .error b =>
    if h : a = b then isTrue (by rw [h]) else isFalse (fun hc => h (by injection hc))
  | .ok a, .ok b =>
    if h : a = b then isTrue (by rw [h]) else isFalse (fun hc => h (by injection hc))
  | .error _, .ok _ => isFalse (fun hc => Except.noConfusion hc)
  | .ok _, .error _ => isFalse (fun hc => Except.noConfusion hc)

instance (d : Doc) : Decidable (entityFolderRefsOK d) := by
  unfold entityFolderRefsOK
  infer_instance

instance (d : Doc) : Decidable (entityFolderNamesOK d) := by
  unfold entityFolderNamesOK
  infer_instance

/-! ## Helper lemmas -/

theorem pyFindIdx_eq_none_iff {α : Type} {p : α → Bool} {l : List α} :
    pyFindIdx p l = none ↔ ∀ x ∈ l, p x = false := by
  induction l with
  | nil => simp [pyFindIdx]
  | cons a l ih =>
    by_cases h : p a
    · simp [pyFindIdx, h]
    · simp [pyFindIdx, h, Option.map_eq_none', ih]

theorem pyFindIdx_eq_some {α : Type} [Inhabited α] {p : α → Bool} {l : List α} {i : ℕ}
    (h : pyFindIdx p l = some i) :
    i < l.length ∧ p (l.getD i default) = true := by
  induction l generalizing i with
  | nil => simp [pyFindIdx] at h
  | cons a l ih =>
    by_cases hp : p a
    · simp [pyFindIdx, hp] at h
      subst h
      simpa using hp
    · simp [pyFindIdx, hp, Option.map_eq_some'] at h
      obtain ⟨j, hj, rfl⟩ := h
      obtain ⟨h1, h2⟩ := ih hj
      refine ⟨by simpa using Nat.succ_lt_succ h1, ?_⟩
      simpa [List.getD_cons_succ] using h2

theorem pyFindIdx_append_last {α : Type} {p : α → Bool} {l : List α}
    (hl : ∀ x ∈ l, p x = false) {a : α} (ha : p a = true) :
    pyFindIdx p (l ++ [a]) = some l.length := by
  induction l with
  | nil => simp [pyFindIdx, ha]
  | cons b l ih =>
    have hb : p b = false := hl b (by simp)
    simp [pyFindIdx, hb, ih (fun x hx => hl x (by simp [hx]))]

theorem pyFindIdx_set {α : Type} [Inhabited α] {p : α → Bool} {l : List α} {i : ℕ}
    (h : pyFindIdx p l = some i) {a : α} (ha : p a = true) :
    pyFindIdx p (l.set i a) = some i := by
  induction l generalizing i with
  | nil => simp [pyFindIdx] at h
  | cons b l ih =>
    by_cases hb : p b
    · simp [pyFindIdx, hb] at h
      subst h
      simp [List.set_cons_zero, pyFindIdx, ha]
    · simp [pyFindIdx, hb, Option.map_eq_some'] at h
      obtain ⟨j, hj, rfl⟩ := h
      simp [List.set_cons_succ, pyFindIdx, hb, ih hj]

theorem getD_mem {α : Type} [Inhabited α] {l : List α} {i : ℕ} (h : i < l.length) :
    l.getD i default ∈ l := by
  rw [List.getD_eq_getElem _ _ h]
  exact List.getElem_mem h

theorem getD_set_self {α : Type} [Inhabited α] {l : List α} {i : ℕ} (h : i < l.length) (a : α) :
    (l.set i a).getD i default = a := by
  rw [List.getD_eq_getElem _ _ (by simpa using h)]
  exact List.getElem_set_self (by simpa using h)

theorem mem_set_self {α : Type} [Inhabited α] {l : List α} {i : ℕ} (h : i < l.length) (a : α) :
    a ∈ l.set i a := by
  have hsd : (l.set i a).getD i default = a := getD_set_self h a
  have hmem := getD_mem (l := l.set i a) (by simpa using h)
  rw [hsd] at hmem
  exact hmem

theorem getD_set_ne {α : Type} [Inhabited α] {l : List α} {i j : ℕ} (h : i ≠ j) (a : α) :
    (l.set i a).getD j default = l.getD j default := by
  by_cases hj : j < l.length
  · rw [List.getD_eq_getElem _ _ (by simpa using hj), List.getD_eq_getElem _ _ hj]
    exact List.getElem_set_ne h _
  · rw [List.getD_eq_default _ _ (by simpa using Nat.le_of_not_lt hj),
      List.getD_eq_default _ _ (Nat.le_of_not_lt hj)]

theorem getD_append_left {α : Type} [Inhabited α] {l l' : List α} {j : ℕ} (h : j < l.length) :
    (l ++ l').getD j default = l.getD j default := by
  rw [List.getD_eq_getElem _ _ (by simp; omega), List.getD_eq_getElem _ _ h]
  exact List.getElem_append_left h

theorem getD_append_length {α : Type} [Inhabited α] {l : List α} (a : α) :
    (l ++ [a]).getD l.length default = a := by
  rw [List.getD_eq_getElem _ _ (by simp)]
  simp [List.getElem_append_right (Nat.le_refl l.length)]

theorem set_self_of_getElem {α : Type} (l : List α) (i : ℕ) (h : i < l.length) :
    l.set i l[i] = l := by
  apply List.ext_getElem
  · simp
  · intro n h1 h2
    by_cases hn : i = n
    · subst hn
      simp
    · rw [List.getElem_set_ne hn]

theorem map_id_set_of_id_eq {l : List RawFolder} {i : ℕ} {a : RawFolder}
    (hid : a.id = (l.getD i default).id) :
    (l.set i a).map RawFolder.id = l.map RawFolder.id := by
  by_cases hi : i < l.length
  · rw [List.map_set, hid, List.getD_eq_getElem _ _ hi]
    have hmap : i < (l.map RawFolder.id).length := by simpa using hi
    have hel : l[i].id = (l.map RawFolder.id)[i] := (List.getElem_map _).symm
    rw [hel]
    exact set_self_of_getElem _ _ hmap
  · rw [List.set_eq_of_length_le (Nat.le_of_not_lt hi)]

theorem map_eq_self {α : Type} {l : List α} {f : α → α} (h : ∀ a ∈ l, f a = a) :
    l.map f = l := by
  induction l with
  | nil => rfl
  | cons a l ih => simp [h a (by simp), ih (fun x hx => h x (by simp [hx]))]

theorem pyLower_eq_empty_iff {s : String} : pyLower s = "" ↔ s = "" := by
  constructor
  · intro h
    have hd : s.data.map Char.toLower = [] := congrArg String.data h
    ext1
    simpa using hd
  · intro h
    subst h
    rfl

theorem dropWhile_head_false {α : Type} {p : α → Bool} :
    ∀ {l : List α} {a : α} {t : List α}, l.dropWhile p = a :: t → p a = false := by
  intro l
  induction l with
  | nil => intro a t h; simp [List.dropWhile] at h
  | cons c l ih =>
    intro a t h
    by_cases hc : p c
    · exact ih (by simpa [List.dropWhile, hc] using h)
    · rw [List.dropWhile_cons_of_neg hc] at h
      cases h
      simpa using hc

theorem dropWhile_self {α : Type} {p : α → Bool} {l t : List α} (h : l.dropWhile p = t) :
    t.dropWhile p = t := by
  cases t with
  | nil => rfl
  | cons a t' => exact List.dropWhile_cons_of_neg (by simp [dropWhile_head_false h])

theorem pyStrip_idem (s : String) : pyStrip (pyStrip s) = pyStrip s := by
  ext1
  show ((((pyStrip s).data).dropWhile Char.isWhitespace).reverse.dropWhile
      Char.isWhitespace).reverse = (pyStrip s).data
  have hstep1 : ((pyStrip s).data).dropWhile Char.isWhitespace = (pyStrip s).data := by
    cases hcase : (pyStrip s).data with
    | nil => simp
    | cons r R =>
      have ht := List.takeWhile_append_dropWhile Char.isWhitespace
        (s.data.dropWhile Char.isWhitespace).reverse
      have hA : s.data.dropWhile Char.isWhitespace =
          ((s.data.dropWhile Char.isWhitespace).reverse.dropWhile Char.isWhitespace).reverse ++
            (List.takeWhile Char.isWhitespace
              (s.data.dropWhile Char.isWhitespace).reverse).reverse := by
        conv_lhs => rw [← List.reverse_reverse (s.data.dropWhile Char.isWhitespace), ← ht]
        rw [List.reverse_append]
      have hhead : Char.isWhitespace r = false := by
        apply dropWhile_head_false (l := s.data) (p := Char.isWhitespace)
        rw [hA]
        have hw : ((s.data.dropWhile Char.isWhitespace).reverse.dropWhile
            Char.isWhitespace).reverse = r :: R := hcase
        rw [hw]
        rfl
      exact List.dropWhile_cons_of_neg (by simp [hhead])
  rw [hstep1]
  have hB : (pyStrip s).data.reverse =
      (s.data.dropWhile Char.isWhitespace).reverse.dropWhile Char.isWhitespace := by
    show (((s.data.dropWhile Char.isWhitespace).reverse.dropWhile
        Char.isWhitespace).reverse).reverse = _
    rw [List.reverse_reverse]
  rw [hB, dropWhile_self rfl, ← hB, List.reverse_reverse]

theorem pyStrip_pyStrip_empty {s : String} (h : pyStrip (pyStrip s) = "") : pyStrip s = "" := by
  have hd : (((pyStrip s).data.dropWhile Char.isWhitespace).reverse.dropWhile
      Char.isWhitespace).reverse = [] := congrArg String.data h
  rw [List.reverse_eq_nil_iff] at hd
  have hall : ∀ x ∈ (pyStrip s).data.dropWhile Char.isWhitespace, Char.isWhitespace x := by
    intro x hx
    have := List.dropWhile_eq_nil_iff.mp hd
    exact this x (by simpa using hx)
  have hdw : (pyStrip s).data.dropWhile Char.isWhitespace = [] := by
    cases hcase : (pyStrip s).data.dropWhile Char.isWhitespace with
    | nil => rfl
    | cons b t =>
      have hb : Char.isWhitespace b = false := dropWhile_head_false hcase
      have : Char.isWhitespace b := hall b (by rw [hcase]; exact List.mem_cons_self _ _)
      simp [this] at hb
  have hcore : ∀ x ∈ (pyStrip s).data, Char.isWhitespace x := List.dropWhile_eq_nil_iff.mp hdw
  have hnil : (pyStrip s).data = [] := by
    cases hcase : (pyStrip s).data with
    | nil => rfl
    | cons b t =>
      exfalso
      have hrev : ((s.data.dropWhile Char.isWhitespace).reverse.dropWhile
          Char.isWhitespace).reverse = b :: t := hcase
      have : (s.data.dropWhile Char.isWhitespace).reverse.dropWhile Char.isWhitespace =
          (b :: t).reverse := by
        rw [← hrev, List.reverse_reverse]
      rcases hrev2 : (s.data.dropWhile Char.isWhitespace).reverse.dropWhile Char.isWhitespace with
        _ | ⟨c, u⟩
      · rw [hrev2] at this
        simp at this
      · have hc : Char.isWhitespace c = false := dropWhile_head_false hrev2
        have hcmem : c ∈ (pyStrip s).data := by
          show c ∈ ((s.data.dropWhile Char.isWhitespace).reverse.dropWhile
            Char.isWhitespace).reverse
          rw [List.mem_reverse, hrev2]
          exact List.mem_cons_self _ _
        have := hcore c hcmem
        simp [this] at hc
  ext1
  simpa using hnil

theorem getOrCreateFolder_ok {d : Doc} {name freshId now : String} {d1 : Doc} {i : ℕ}
    (h : getOrCreateFolder d name freshId now = .ok (d1, i)) :
    pyStrip name ≠ "" ∧ i < d1.folders.length ∧
    pyLower (d1.folders.getD i default).name = pyLower (pyStrip name) ∧
    d.folders.length ≤ d1.folders.length ∧
    (∀ j, j < d.folders.length → d1.folders.getD j default = d.folders.getD j default) ∧
    ((d1 = d ∧
      pyFindIdx (fun f => pyLower f.name == pyLower (pyStrip name)) d.folders = some i) ∨
     (d1.folders = d.folders ++ [⟨freshId, pyStrip name, some now, []⟩] ∧
      i = d.folders.length ∧
      pyFindIdx (fun f => pyLower f.name == pyLower (pyStrip name)) d.folders = none)) := by
  by_cases hn : pyStrip name = ""
  · simp [getOrCreateFolder, hn] at h
  cases hfind : pyFindIdx (fun f => pyLower f.name == pyLower (pyStrip name)) d.folders with
  | some k =>
    simp [getOrCreateFolder, hn, hfind] at h
    obtain ⟨rfl, rfl⟩ := h
    obtain ⟨hk1, hk2⟩ := pyFindIdx_eq_some hfind
    exact ⟨hn, hk1, eq_of_beq hk2, Nat.le_refl _, fun j _ => rfl, Or.inl ⟨rfl, rfl⟩⟩
  | none =>
    simp [getOrCreateFolder, hn, hfind] at h
    obtain ⟨rfl, rfl⟩ := h
    refine ⟨hn, by simp, ?_, by simp, fun j hj => getD_append_left hj,
      Or.inr ⟨rfl, rfl, rfl⟩⟩
    rw [getD_append_length]

theorem getOrCreateFolder_error {d : Doc} {name freshId now : String} {err : VaultError}
    (h : getOrCreateFolder d name freshId now = .error err) : pyStrip name = "" := by
  by_cases hn : pyStrip name = ""
  · exact hn
  · exfalso
    cases hfind : pyFindIdx (fun f => pyLower f.name == pyLower (pyStrip name)) d.folders with
    | some k => simp [getOrCreateFolder, hn, hfind] at h
    | none => simp [getOrCreateFolder, hn, hfind] at h

theorem findEntityLoc_some {folders : List RawFolder} {eid : String} {ci ei : ℕ}
    (h : findEntityLoc folders eid = some (ci, ei)) :
    ci < folders.length ∧
    pyFindIdx (fun e => e.id == eid) (folders.getD ci default).entities = some ei := by
  induction folders generalizing ci with
  | nil => simp [findEntityLoc] at h
  | cons f rest ih =>
    cases hf : pyFindIdx (fun e => e.id == eid) f.entities with
    | some j =>
      simp [findEntityLoc, hf] at h
      obtain ⟨rfl, rfl⟩ := h
      simpa using hf
    | none =>
      simp only [findEntityLoc, hf, Option.map_eq_some'] at h
      obtain ⟨⟨ci', ei'⟩, hloc, hpair⟩ := h
      cases hpair
      obtain ⟨h1, h2⟩ := ih hloc
      exact ⟨by simpa using Nat.succ_lt_succ h1, by simpa [List.getD_cons_succ] using h2⟩

theorem findEntityLoc_eq_none_iff {folders : List RawFolder} {eid : String} :
    findEntityLoc folders eid = none ↔
      ∀ f ∈ folders, ∀ e ∈ f.entities, e.id ≠ eid := by
  induction folders with
  | nil => simp [findEntityLoc]
  | cons f rest ih =>
    cases hf : pyFindIdx (fun e => e.id == eid) f.entities with
    | some j =>
      simp only [findEntityLoc, hf]
      obtain ⟨h1, h2⟩ := pyFindIdx_eq_some hf
      refine iff_of_false (by simp) ?_
      intro hall
      exact hall f (by simp) _ (getD_mem h1) (eq_of_beq h2)
    | none =>
      have hfall := pyFindIdx_eq_none_iff.mp hf
      simp only [findEntityLoc, hf, Option.map_eq_none', ih, List.mem_cons]
      constructor
      · rintro hall g (rfl | hg) e he
        · intro heq
          have := hfall e he
          simp [heq] at this
        · exact hall g hg e he
      · intro hall g hg e he
        exact hall g (Or.inr hg) e he

theorem hydrate_rawOfEntity (f : RawFolder) (now : String) (e : Entity) :
    hydrateEntity f now (rawOfEntity e) = e := by
  cases e
  rfl

theorem getEntity_id {d : Doc} {now eid : String} {e : Entity}
    (h : getEntity d now eid = some e) : e.id = eid := by
  have := List.find?_some h
  exact eq_of_beq this

theorem listFolders_replaceAll (fs : List FolderWithEntities) (now' : String) :
    listFolders (replaceAll fs) now' =
      fs.map (fun f =>
        { f with entities :=
            f.entities.map (fun e => { e with folder_id := f.id, folder_name := f.name }) }) := by
  simp only [listFolders, replaceAll, List.map_map]
  refine List.map_congr_left (fun f _ => ?_)
  simp only [Function.comp, serializeFolder, serializeEntityForFolder, rawOfEntity,
    hydrateEntity, List.map_map]
  rfl

theorem updateEntity_stay {d : Doc} {eid : String} {p : EntityBase} {ffid now : String}
    {ci ei : ℕ}
    (hloc : findEntityLoc d.folders eid = some (ci, ei))
    (hcond : pyStrip p.folder_name = "" ∨
      pyLower (pyStrip p.folder_name) = pyLower (d.folders.getD ci default).name) :
    updateEntity d eid p ffid now =
      .ok (⟨d.folders.set ci { d.folders.getD ci default with
              entities := (d.folders.getD ci default).entities.set ei
                (rawOfEntity
                  { id := eid, title := p.title, description := p.description
                    data_type := p.data_type, data := p.data
                    folder_name := (d.folders.getD ci default).name
                    folder_id := (d.folders.getD ci default).id
                    created_at := ((d.folders.getD ci default).entities.getD ei
                        default).created_at.getD now }) }⟩,
        { id := eid, title := p.title, description := p.description
          data_type := p.data_type, data := p.data
          folder_name := (d.folders.getD ci default).name
          folder_id := (d.folders.getD ci default).id
          created_at := ((d.folders.getD ci default).entities.getD ei
              default).created_at.getD now }) := by
  have hncond : ¬(pyStrip p.folder_name ≠ "" ∧
      pyLower (pyStrip p.folder_name) ≠ pyLower (d.folders.getD ci default).name) := by
    rcases hcond with h | h
    · exact fun hc => hc.1 h
    · exact fun hc => hc.2 h
  simp only [updateEntity, hloc]
  rw [if_neg hncond]

theorem updateEntity_move {d : Doc} {eid : String} {p : EntityBase} {ffid now : String}
    {ci ei : ℕ} {d1 : Doc} {ti : ℕ}
    (hloc : findEntityLoc d.folders eid = some (ci, ei))
    (h1 : pyStrip p.folder_name ≠ "")
    (h2 : pyLower (pyStrip p.folder_name) ≠ pyLower (d.folders.getD ci default).name)
    (hg : getOrCreateFolder d (pyStrip p.folder_name) ffid now = .ok (d1, ti)) :
    updateEntity d eid p ffid now =
      (let folders2 := d1.folders.set ci { d.folders.getD ci default with
          entities := (d.folders.getD ci default).entities.eraseIdx ei };
       let tf := folders2.getD ti default;
       let e' : Entity :=
         { id := eid, title := p.title, description := p.description
           data_type := p.data_type, data := p.data
           folder_name := tf.name, folder_id := tf.id
           created_at := ((d.folders.getD ci default).entities.getD ei
               default).created_at.getD now };
       .ok (⟨folders2.set ti { tf with entities := tf.entities ++ [rawOfEntity e'] }⟩, e')) := by
  simp only [updateEntity, hloc, hg]
  rw [if_pos ⟨h1, h2⟩]

theorem refs_ok_append_empty {d : Doc} (hOK : entityFolderRefsOK d) (g : RawFolder)
    (hg : g.entities = []) : entityFolderRefsOK ⟨d.folders ++ [g]⟩ := by
  intro f' hf' e'' he''
  show e''.folder_id.getD f'.id ∈ (d.folders ++ [g]).map RawFolder.id
  rcases List.mem_append.mp hf' with hm | hm
  · rw [List.map_append]
    exact List.mem_append_left _ (hOK f' hm e'' he'')
  · rw [List.mem_singleton] at hm
    subst hm
    rw [hg] at he''
    simp at he''

theorem refs_ok_set_generic {d1 : Doc} {i : ℕ} {A : RawFolder}
    (hOK1 : entityFolderRefsOK d1)
    (hid : A.id = (d1.folders.getD i default).id)
    (hents : ∀ e ∈ A.entities, e ∈ (d1.folders.getD i default).entities ∨
        e.folder_id = some A.id) :
    entityFolderRefsOK ⟨d1.folders.set i A⟩ := by
  by_cases hi : i < d1.folders.length
  · intro f' hf' e'' he''
    have hids : (d1.folders.set i A).map RawFolder.id = d1.folders.map RawFolder.id :=
      map_id_set_of_id_eq hid
    show e''.folder_id.getD f'.id ∈ (d1.folders.set i A).map RawFolder.id
    rw [hids]
    rcases List.mem_or_eq_of_mem_set hf' with hm | rfl
    · exact hOK1 f' hm e'' he''
    · rcases hents e'' he'' with hold | hnew
      · have hres := hOK1 _ (getD_mem hi) e'' hold
        rw [hid]
        exact hres
      · rw [hnew]
        show f'.id ∈ List.map RawFolder.id d1.folders
        rw [hid]
        exact List.mem_map.mpr ⟨_, getD_mem hi, rfl⟩
  · rw [List.set_eq_of_length_le (Nat.le_of_not_lt hi)]
    exact hOK1

theorem getOrCreateFolder_preserves_refs {d : Doc} {nm fr nw : String} {d1 : Doc} {i : ℕ}
    (hOK : entityFolderRefsOK d) (hg : getOrCreateFolder d nm fr nw = .ok (d1, i)) :
    entityFolderRefsOK d1 := by
  obtain ⟨-, -, -, -, -, hcases⟩ := getOrCreateFolder_ok hg
  rcases hcases with ⟨rfl, -⟩ | ⟨hfold, -, -⟩
  · exact hOK
  · obtain ⟨L⟩ := d1
    have hfold' : L = d.folders ++ [⟨fr, pyStrip nm, some nw, []⟩] := hfold
    subst hfold'
    exact refs_ok_append_empty hOK _ rfl

theorem addEntity_preserves_refs {d : Doc} {p : EntityBase} {eid ffid now : String}
    {d' : Doc} {e : Entity} (hOK : entityFolderRefsOK d)
    (h : addEntity d p eid ffid now = .ok (d', e)) :
    entityFolderRefsOK d' ∧ e.folder_name = p.folder_name ∧ e.folder_id ∈ folderIds d' := by
  cases hg : getOrCreateFolder d p.folder_name ffid now with
  | error err =>
    unfold addEntity at h
    rw [hg] at h
    simp at h
  | ok pr =>
    obtain ⟨d1, i⟩ := pr
    unfold addEntity at h
    rw [hg] at h
    simp only [Except.ok.injEq, Prod.mk.injEq] at h
    obtain ⟨rfl, rfl⟩ := h
    obtain ⟨-, hi, -, -, -, -⟩ := getOrCreateFolder_ok hg
    have hOK1 : entityFolderRefsOK d1 := getOrCreateFolder_preserves_refs hOK hg
    refine ⟨?_, rfl, ?_⟩
    · refine refs_ok_set_generic hOK1 rfl ?_
      intro e'' he''
      rcases List.mem_append.mp he'' with hold | hnew
      · exact Or.inl hold
      · rw [List.mem_singleton] at hnew
        subst hnew
        exact Or.inr rfl
    · show (d1.folders.getD i default).id ∈ _
      exact List.mem_map.mpr ⟨_, mem_set_self hi _, rfl⟩

theorem updateEntity_preserves_refs {d : Doc} {eid : String} {p : EntityBase}
    {ffid now : String} {d' : Doc} {e' : Entity} (hOK : entityFolderRefsOK d)
    (h : updateEntity d eid p ffid now = .ok (d', e')) :
    entityFolderRefsOK d' ∧ ∃ g ∈ d'.folders, g.id = e'.folder_id ∧ g.name = e'.folder_name := by
  cases hloc : findEntityLoc d.folders eid with
  | none =>
    unfold updateEntity at h
    rw [hloc] at h
    simp at h
  | some pr =>
    obtain ⟨ci, ei⟩ := pr
    obtain ⟨hci, -⟩ := findEntityLoc_some hloc
    by_cases hmc : pyStrip p.folder_name ≠ "" ∧
        pyLower (pyStrip p.folder_name) ≠ pyLower (d.folders.getD ci default).name
    · obtain ⟨h1, h2⟩ := hmc
      cases hg : getOrCreateFolder d (pyStrip p.folder_name) ffid now with
      | error err => exact absurd (pyStrip_pyStrip_empty (getOrCreateFolder_error hg)) h1
      | ok pr2 =>
        obtain ⟨d1, ti⟩ := pr2
        rw [updateEntity_move hloc h1 h2 hg] at h
        simp only [Except.ok.injEq, Prod.mk.injEq] at h
        obtain ⟨rfl, rfl⟩ := h
        obtain ⟨-, hti, -, -, hstable, -⟩ := getOrCreateFolder_ok hg
        have hcf : d1.folders.getD ci default = d.folders.getD ci default := hstable ci hci
        have hOK1 : entityFolderRefsOK d1 := getOrCreateFolder_preserves_refs hOK hg
        have hOK2 : entityFolderRefsOK ⟨d1.folders.set ci { d.folders.getD ci default with
            entities := (d.folders.getD ci default).entities.eraseIdx ei }⟩ := by
          refine refs_ok_set_generic hOK1 (by rw [hcf]) ?_
          intro e'' he''
          refine Or.inl ?_
          rw [hcf]
          exact (List.eraseIdx_sublist _ _).subset he''
        have htiset : ti < (d1.folders.set ci { d.folders.getD ci default with
            entities := (d.folders.getD ci default).entities.eraseIdx ei }).length := by
          simpa using hti
        constructor
        · refine refs_ok_set_generic hOK2 rfl ?_
          intro e'' he''
          rcases List.mem_append.mp he'' with hold | hnew
          · exact Or.inl hold
          · rw [List.mem_singleton] at hnew
            subst hnew
            exact Or.inr rfl
        · exact ⟨_, mem_set_self htiset _, rfl, rfl⟩
    · have hcond : pyStrip p.folder_name = "" ∨
          pyLower (pyStrip p.folder_name) = pyLower (d.folders.getD ci default).name := by
        by_cases hb : pyStrip p.folder_name = ""
        · exact Or.inl hb
        · exact Or.inr (not_not.mp (fun hc => hmc ⟨hb, hc⟩))
      rw [updateEntity_stay hloc hcond] at h
      simp only [Except.ok.injEq, Prod.mk.injEq] at h
      obtain ⟨rfl, rfl⟩ := h
      constructor
      · refine refs_ok_set_generic hOK rfl ?_
        intro e'' he''
        rcases List.mem_or_eq_of_mem_set he'' with hold | rfl
        · exact Or.inl hold
        · exact Or.inr rfl
      · exact ⟨_, mem_set_self hci _, rfl, rfl⟩

theorem replaceAll_names_ok (fs : List FolderWithEntities) :
    entityFolderNamesOK (replaceAll fs) := by
  intro f' hf' e'' he''
  simp only [replaceAll] at hf'
  obtain ⟨fw, hfw, rfl⟩ := List.mem_map.mp hf'
  simp only [serializeFolder] at he''
  obtain ⟨ew, -, rfl⟩ := List.mem_map.mp he''
  exact ⟨serializeFolder fw, by simpa [replaceAll] using List.mem_map_of_mem serializeFolder hfw,
    rfl, rfl⟩

theorem migrate_names_ok (legacy : List RawEntity) (fid now : String)
    (hleg : ∀ e ∈ legacy, e.folder_id = none ∧ e.folder_name = none) :
    entityFolderNamesOK (migrateListToFolders legacy fid now) := by
  intro f' hf' e'' he''
  simp only [migrateListToFolders, List.mem_singleton] at hf'
  subst hf'
  simp only at he''
  obtain ⟨ew, hew, rfl⟩ := List.mem_map.mp he''
  obtain ⟨h1, h2⟩ := hleg ew hew
  refine ⟨_, List.mem_singleton.mpr rfl, ?_, ?_⟩
  · simp [h1]
  · simp [h2, DEFAULT_FOLDER_NAME]

theorem searchLoop_mem {d : Doc} {now : String} :
    ∀ (hits : List (Option String)) (seen : List String),
      ∀ m ∈ searchLoop d now hits seen,
        m.entity_id ∉ seen ∧
        ∃ e, getEntity d now m.entity_id = some e ∧ m = mkSearchMatch e := by
  intro hits
  induction hits with
  | nil =>
    intro seen m hm
    simp [searchLoop] at hm
  | cons hit rest ih =>
    intro seen m hm
    cases hit with
    | none => exact ih seen m (by simpa [searchLoop] using hm)
    | some eid =>
      by_cases hskip : eid = "" ∨ eid ∈ seen
      · refine ih seen m ?_
        simpa [searchLoop, if_pos hskip] using hm
      · cases hget : getEntity d now eid with
        | none =>
          refine ih seen m ?_
          simp only [searchLoop] at hm
          rw [if_neg hskip] at hm
          simpa [hget] using hm
        | some e =>
          simp only [searchLoop] at hm
          rw [if_neg hskip] at hm
          simp only [hget, List.mem_cons] at hm
          have hid : e.id = eid := getEntity_id hget
          rcases hm with rfl | hm
          · refine ⟨?_, e, ?_, rfl⟩
            · show e.id ∉ seen
              rw [hid]
              exact fun hmem => hskip (Or.inr hmem)
            · show getEntity d now e.id = some e
              rw [hid]
              exact hget
          · obtain ⟨hnot, hprov⟩ := ih (eid :: seen) m hm
            exact ⟨fun hmem => hnot (List.mem_cons_of_mem _ hmem), hprov⟩

theorem searchLoop_pairwise {d : Doc} {now : String} :
    ∀ (hits : List (Option String)) (seen : List String),
      (searchLoop d now hits seen).Pairwise (fun a b => a.entity_id ≠ b.entity_id) := by
  intro hits
  induction hits with
  | nil => intro seen; simp [searchLoop]
  | cons hit rest ih =>
    intro seen
    cases hit with
    | none => simpa [searchLoop] using ih seen
    | some eid =>
      by_cases hskip : eid = "" ∨ eid ∈ seen
      · simpa [searchLoop, if_pos hskip] using ih seen
      · cases hget : getEntity d now eid with
        | none =>
          simp only [searchLoop]
          rw [if_neg hskip]
          simpa [hget] using ih seen
        | some e =>
          simp only [searchLoop]
          rw [if_neg hskip]
          simp only [hget]
          refine List.Pairwise.cons ?_ (ih (eid :: seen))
          intro b hb
          have hnot := (searchLoop_mem rest (eid :: seen) b hb).1
          have hid : e.id = eid := getEntity_id hget
          show e.id ≠ b.entity_id
          rw [hid]
          exact fun hcontra => hnot (hcontra ▸ List.mem_cons_self _ _)

theorem searchLoop_sublist {d : Doc} {now : String} :
    ∀ (hits : List (Option String)) (seen : List String),
      ((searchLoop d now hits seen).map SearchMatch.entity_id).Sublist (hits.filterMap id) := by
  intro hits
  induction hits with
  | nil => intro seen; simp [searchLoop]
  | cons hit rest ih =>
    intro seen
    cases hit with
    | none => simpa [searchLoop, List.filterMap_cons] using ih seen
    | some eid =>
      simp only [List.filterMap_cons, id]
      by_cases hskip : eid = "" ∨ eid ∈ seen
      · simp only [searchLoop]
        rw [if_pos hskip]
        exact (ih seen).cons eid
      · cases hget : getEntity d now eid with
        | none =>
          simp only [searchLoop]
          rw [if_neg hskip]
          simp only [hget]
          exact (ih seen).cons eid
        | some e =>
          simp only [searchLoop]
          rw [if_neg hskip]
          simp only [hget, List.map_cons]
          have hid : (mkSearchMatch e).entity_id = eid := getEntity_id hget
          rw [hid]
          exact (ih (eid :: seen)).cons₂ eid

theorem searchLoop_complete {d : Doc} {now : String} :
    ∀ (hits : List (Option String)) (seen : List String) (eid : String) (e : Entity),
      eid ∉ seen → eid ≠ "" → some eid ∈ hits → getEntity d now eid = some e →
      ∃ m ∈ searchLoop d now hits seen, m.entity_id = eid := by
  intro hits
  induction hits with
  | nil =>
    intro seen eid e _ _ hmem _
    simp at hmem
  | cons hit rest ih =>
    intro seen eid e hseen hne hmem hget
    by_cases hhit : hit = some eid
    · subst hhit
      have hskip : ¬(eid = "" ∨ eid ∈ seen) := by
        rintro (h | h)
        · exact hne h
        · exact hseen h
      simp only [searchLoop]
      rw [if_neg hskip]
      simp only [hget]
      exact ⟨mkSearchMatch e, List.mem_cons_self _ _, getEntity_id hget⟩
    · have hmem' : some eid ∈ rest := by
        rcases List.mem_cons.mp hmem with h | h
        · exact absurd h.symm hhit
        · exact h
      cases hit with
      | none =>
        obtain ⟨m, hm, hmid⟩ := ih seen eid e hseen hne hmem' hget
        exact ⟨m, by simpa [searchLoop] using hm, hmid⟩
      | some eid' =>
        by_cases hskip : eid' = "" ∨ eid' ∈ seen
        · obtain ⟨m, hm, hmid⟩ := ih seen eid e hseen hne hmem' hget
          refine ⟨m, ?_, hmid⟩
          simp only [searchLoop]
          rw [if_pos hskip]
          exact hm
        · cases hget' : getEntity d now eid' with
          | none =>
            obtain ⟨m, hm, hmid⟩ := ih seen eid e hseen hne hmem' hget
            refine ⟨m, ?_, hmid⟩
            simp only [searchLoop]
            rw [if_neg hskip]
            simpa [hget'] using hm
          | some e' =>
            have hne' : eid ≠ eid' := fun hcontra => hhit (by rw [hcontra])
            have hseen' : eid ∉ eid' :: seen := by
              intro hc
              rcases List.mem_cons.mp hc with h | h
              · exact hne' h
              · exact hseen h
            obtain ⟨m, hm, hmid⟩ := ih (eid' :: seen) eid e hseen' hne hmem' hget
            refine ⟨m, ?_, hmid⟩
            simp only [searchLoop]
            rw [if_neg hskip]
            simp only [hget', List.mem_cons]
            exact Or.inr hm

/-! ## Claims -/

/-- C1 counterexample. First part: starting from the empty store and adding a
payload with folder name `aws` and then one with `AWS`, the second entity is
stored with the payload's verbatim `folder_name` `AWS` while its folder's
stored name is `aws` — so the denormalization invariant (the claim's "the
created entity's folder_name equals that folder's stored name") fails right
after `addEntity`, on a reachable store. Second part: migration also violates
the invariant when a legacy record already carries a dangling `folder_id`
(`setdefault` keeps it). -/
theorem C1_denormalization_counterexample :
    (addEntity ⟨[]⟩ exPayloadLower "e1" "f1" "t1" = .ok (exDocA,
        ⟨"e1", "AWS Key", "d1", "link", "k1", "aws", "f1", "t1"⟩) ∧
     addEntity exDocA exPayloadUpper "e2" "f2" "t2" = .ok (exDocB,
        ⟨"e2", "Note", "d2", "note", "k2", "AWS", "f1", "t2"⟩) ∧
     folderIds exDocB = ["f1"] ∧
     (exDocB.folders.getD 0 default).name = "aws" ∧
     ((exDocB.folders.getD 0 default).entities.getD 1 default).folder_id = some "f1" ∧
     ((exDocB.folders.getD 0 default).entities.getD 1 default).folder_name = some "AWS" ∧
     ¬ entityFolderNamesOK exDocB) ∧
    ¬ entityFolderNamesOK (migrateListToFolders
        [⟨"a", "x", "dx", "note", "v", none, some "zzz", none⟩] "f1" "t1") := by
  decide

/-- C1 (amended): the referential half of the invariant is preserved — after
`addEntity` and `updateEntity` on a store where every entity's (hydrated)
`folder_id` names an existing folder, it still does, and the created/updated
entity's `folder_id` names a folder of the new store; `importAll`
(`replaceAll`) establishes the FULL denormalization invariant on any input,
`updateEntity` re-derives the touched entity's `folder_name` from its target
folder, and migration establishes the full invariant for legacy records that
carry no folder fields of their own. But `addEntity` stores the payload's
`folder_name` verbatim, so the `folder_name` half of the invariant does not
survive `addEntity` (see the counterexample). -/
theorem C1_referential_integrity_amended :
    (∀ (d : Doc) (p : EntityBase) (eid ffid now : String) (d' : Doc) (e : Entity),
      entityFolderRefsOK d → addEntity d p eid ffid now = .ok (d', e) →
      entityFolderRefsOK d' ∧ e.folder_name = p.folder_name ∧ e.folder_id ∈ folderIds d') ∧
    (∀ (d : Doc) (eid : String) (p : EntityBase) (ffid now : String) (d' : Doc) (e' : Entity),
      entityFolderRefsOK d → updateEntity d eid p ffid now = .ok (d', e') →
      entityFolderRefsOK d' ∧
      ∃ g ∈ d'.folders, g.id = e'.folder_id ∧ g.name = e'.folder_name) ∧
    (∀ fs : List FolderWithEntities, entityFolderNamesOK (replaceAll fs)) ∧
    (∀ (legacy : List RawEntity) (fid now : String),
      (∀ e ∈ legacy, e.folder_id = none ∧ e.folder_name = none) →
      entityFolderNamesOK (migrateListToFolders legacy fid now)) := by
  refine ⟨?_, ?_, replaceAll_names_ok, migrate_names_ok⟩
  · intro d p eid ffid now d' e hOK h
    exact addEntity_preserves_refs hOK h
  · intro d eid p ffid now d' e' hOK h
    exact updateEntity_preserves_refs hOK h

/-- Witness for C1's amended statement: a concrete add and a concrete update
on reachable stores, and concrete import/migration inputs. -/
theorem C1_referential_integrity_amended_witness :
    (entityFolderRefsOK exDocB ∧
      (⟨"e2", "Note", "d2", "note", "k2", "AWS", "f1", "t2"⟩ : Entity).folder_name =
        exPayloadUpper.folder_name ∧
      (⟨"e2", "Note", "d2", "note", "k2", "AWS", "f1", "t2"⟩ : Entity).folder_id ∈
        folderIds exDocB) ∧
    entityFolderNamesOK (replaceAll (listFolders exDocB "t9")) ∧
    entityFolderNamesOK (migrateListToFolders
      [⟨"a", "x", "dx", "note", "v", none, none, none⟩] "f1" "t1") := by
  refine ⟨?_, C1_referential_integrity_amended.2.2.1 (listFolders exDocB "t9"),
    C1_referential_integrity_amended.2.2.2 [⟨"a", "x", "dx", "note", "v", none, none, none⟩]
      "f1" "t1" (by decide)⟩
  exact C1_referential_integrity_amended.1 exDocA exPayloadUpper "e2" "f2" "t2" exDocB
    ⟨"e2", "Note", "d2", "note", "k2", "AWS", "f1", "t2"⟩ (by decide) (by decide)

/-- C5: the document text fed to the Index is a function only of `title`,
`description`, `folder_name` and `data_type`; two entities differing only in
the sensitive `data` field (hence sharing all other fields, `id` included)
produce identical index documents and identical index metadata, and
`SearchMatch` values (which carry no `data` field) built from them coincide. -/
theorem C5_index_excludes_sensitive_data (e1 e2 : Entity)
    (htitle : e1.title = e2.title) (hdesc : e1.description = e2.description)
    (hfn : e1.folder_name = e2.folder_name) (hdt : e1.data_type = e2.data_type) :
    formatDocument e1 = formatDocument e2 ∧
    (e1.id = e2.id →
      metadataOf e1 = metadataOf e2 ∧ mkSearchMatch e1 = mkSearchMatch e2) := by
  constructor
  · simp [formatDocument, htitle, hdesc, hfn, hdt]
  · intro hid
    constructor <;> simp [metadataOf, mkSearchMatch, htitle, hfn, hdt, hid]

/-- Witness for C5 at two concrete entities that differ only in `data`. -/
theorem C5_index_excludes_sensitive_data_witness :
    formatDocument ⟨"e9", "T", "D", "note", "secret-one", "F", "f9", "t"⟩ =
      formatDocument ⟨"e9", "T", "D", "note", "secret-two", "F", "f9", "t"⟩ ∧
    metadataOf ⟨"e9", "T", "D", "note", "secret-one", "F", "f9", "t"⟩ =
      metadataOf ⟨"e9", "T", "D", "note", "secret-two", "F", "f9", "t"⟩ := by
  obtain ⟨h1, h2⟩ := C5_index_excludes_sensitive_data
    ⟨"e9", "T", "D", "note", "secret-one", "F", "f9", "t"⟩
    ⟨"e9", "T", "D", "note", "secret-two", "F", "f9", "t"⟩ rfl rfl rfl rfl
  exact ⟨h1, (h2 rfl).1⟩

/-- C10: when the update payload's folder name is blank after trimming,
`updateEntity` does not raise `ValidationError`: it succeeds, keeps the
entity at its position inside its current folder, rewrites the other fields
from the payload (folder fields from the current folder, `created_at`
preserved) — while `addEntity` with the same payload always fails with
`ValidationError`. -/
theorem C10_update_blank_folder_name (d : Doc) (eid : String) (p : EntityBase)
    (ffid now : String) (ci ei : ℕ)
    (hblank : pyStrip p.folder_name = "")
    (hloc : findEntityLoc d.folders eid = some (ci, ei)) :
    (∃ e' : Entity,
      updateEntity d eid p ffid now =
        .ok (⟨d.folders.set ci { d.folders.getD ci default with
                entities := (d.folders.getD ci default).entities.set ei (rawOfEntity e') }⟩,
          e') ∧
      e'.id = eid ∧ e'.title = p.title ∧ e'.description = p.description ∧
      e'.data_type = p.data_type ∧ e'.data = p.data ∧
      e'.folder_name = (d.folders.getD ci default).name ∧
      e'.folder_id = (d.folders.getD ci default).id ∧
      e'.created_at =
        ((d.folders.getD ci default).entities.getD ei default).created_at.getD now) ∧
    (∀ (d2 : Doc) (eid2 ffid2 now2 : String),
      addEntity d2 p eid2 ffid2 now2 = .error .validation) := by
  constructor
  · exact ⟨_, updateEntity_stay hloc (Or.inl hblank), rfl, rfl, rfl, rfl, rfl, rfl, rfl, rfl⟩
  · intro d2 eid2 ffid2 now2
    simp [addEntity, getOrCreateFolder, hblank]

/-- Witness for C10 at a concrete store and the all-whitespace folder name. -/
theorem C10_update_blank_folder_name_witness :
    pyStrip " " = "" ∧
    findEntityLoc exDocA.folders "e1" = some (0, 0) ∧
    addEntity exDocA ⟨"T2", "D2", "note", "X2", " "⟩ "e9" "f9" "t9" = .error .validation := by
  have h := C10_update_blank_folder_name exDocA "e1" ⟨"T2", "D2", "note", "X2", " "⟩
    "f9" "t9" 0 0 (by decide) (by decide)
  exact ⟨by decide, by decide, h.2 exDocA "e9" "f9" "t9"⟩

/-- C8: `deleteFolder` fails with `NotFound` when no folder has the id (the
error propagates before any write, so the store is untouched); on the first
folder with the id it fails with `NotEmptyError` while entities remain — and
once that folder's entity list is emptied, the same call succeeds and removes
exactly that folder. -/
theorem C8_delete_folder (d : Doc) (fid : String) :
    ((∀ f ∈ d.folders, f.id ≠ fid) → deleteFolder d fid = .error .notFound) ∧
    (∀ i, pyFindIdx (fun f => f.id == fid) d.folders = some i →
      ((d.folders.getD i default).entities ≠ [] → deleteFolder d fid = .error .notEmpty) ∧
      ((d.folders.getD i default).entities = [] →
        deleteFolder d fid = .ok ⟨d.folders.eraseIdx i⟩) ∧
      (∀ d' : Doc, d'.folders = d.folders.set i
          { d.folders.getD i default with entities := [] } →
        deleteFolder d' fid = .ok ⟨d'.folders.eraseIdx i⟩)) := by
  constructor
  · intro hall
    have hnone : pyFindIdx (fun f => f.id == fid) d.folders = none :=
      pyFindIdx_eq_none_iff.mpr (fun f hf => by simpa using hall f hf)
    simp [deleteFolder, hnone]
  · intro i hi
    refine ⟨?_, ?_, ?_⟩
    · intro hne
      simp only [deleteFolder, hi]
      rw [if_pos hne]
    · intro hemp
      simp only [deleteFolder, hi]
      rw [if_neg (fun hc => hc hemp)]
    · intro d' hd'
      have hidf : ((d.folders.getD i default).id == fid) = true := (pyFindIdx_eq_some hi).2
      have hlen : i < d.folders.length := (pyFindIdx_eq_some hi).1
      have hi' : pyFindIdx (fun f => f.id == fid) d'.folders = some i := by
        rw [hd']
        exact pyFindIdx_set hi hidf
      have hset : d'.folders.getD i default =
          { d.folders.getD i default with entities := [] } := by
        rw [hd']
        exact getD_set_self hlen _
      simp only [deleteFolder, hi', hset]
      rw [if_neg (fun hc => hc rfl)]

/-- Witness for C8 on a concrete store: missing id, non-empty folder, then
the same folder emptied. -/
theorem C8_delete_folder_witness :
    deleteFolder exDocA "zz" = .error .notFound ∧
    deleteFolder exDocA "f1" = .error .notEmpty ∧
    deleteFolder ⟨[⟨"f1", "aws", some "t1", []⟩]⟩ "f1" = .ok ⟨[]⟩ := by
  have h := (C8_delete_folder exDocA "f1").2 0 (by decide)
  refine ⟨(C8_delete_folder exDocA "zz").1 (by decide), h.1 (by decide), ?_⟩
  exact h.2.2 ⟨[⟨"f1", "aws", some "t1", []⟩]⟩ (by decide)

/-- C9 counterexample: migration fills entity folder fields with `setdefault`,
so a legacy record that already carries a `folder_id` (here `zzz`) keeps it
instead of being assigned the new folder's id `f1` — the claim's "each
assigned that folder's id" fails on this input. -/
theorem C9_migration_counterexample :
    readRaw (.jsonList [⟨"a", "x", "dx", "note", "v", none, some "zzz", none⟩]) true "f1" "t1" =
      (⟨[⟨"f1", "General", some "t1",
          [⟨"a", "x", "dx", "note", "v", some "General", some "zzz", some "t1"⟩]⟩]⟩,
       some (.jsonDoc ⟨[⟨"f1", "General", some "t1",
          [⟨"a", "x", "dx", "note", "v", some "General", some "zzz", some "t1"⟩]⟩]⟩)) ∧
    ("zzz" : String) ≠ "f1" := by
  decide

/-- C9 (amended): on first read with persistence, a bare legacy list migrates
to a single folder with the fixed default name `General` and the migrated
shape is written back; each legacy entity is kept at its position with
`folder_name`/`folder_id`/`created_at` filled only when absent (in particular
an entity without `folder_id` is assigned the new folder's id); an object
missing the `folders` key becomes the empty store, also written back; and a
current-schema document is returned as-is with no write, so a subsequent read
does not re-run migration. -/
theorem C9_migration_amended (legacy : List RawEntity) (fid now : String) :
    readRaw (.jsonList legacy) true fid now =
      (migrateListToFolders legacy fid now,
       some (.jsonDoc (migrateListToFolders legacy fid now))) ∧
    (migrateListToFolders legacy fid now).folders.map (fun f => (f.id, f.name)) =
      [(fid, DEFAULT_FOLDER_NAME)] ∧
    ((migrateListToFolders legacy fid now).folders.getD 0 default).entities.length =
      legacy.length ∧
    (∀ j, j < legacy.length →
      ((migrateListToFolders legacy fid now).folders.getD 0 default).entities.getD j default =
        { legacy.getD j default with
            folder_name := some ((legacy.getD j default).folder_name.getD DEFAULT_FOLDER_NAME)
            folder_id := some ((legacy.getD j default).folder_id.getD fid)
            created_at := some ((legacy.getD j default).created_at.getD now) }) ∧
    readRaw .jsonNoFolders true fid now = (⟨[]⟩, some (.jsonDoc ⟨[]⟩)) ∧
    (∀ (dcur : Doc) (b : Bool), readRaw (.jsonDoc dcur) b fid now = (dcur, none)) := by
  refine ⟨rfl, rfl, by simp [migrateListToFolders], ?_, rfl, fun _ _ => rfl⟩
  intro j hj
  simp only [migrateListToFolders, List.getD_cons_zero]
  rw [List.getD_eq_getElem _ _ (by simpa using hj), List.getD_eq_getElem _ _ hj,
    List.getElem_map]

/-- Witness for C9 on a one-element legacy list without folder fields. -/
theorem C9_migration_amended_witness :
    ((migrateListToFolders [⟨"a", "x", "dx", "note", "v", none, none, none⟩] "f1" "t1").folders.getD
        0 default).entities.getD 0 default =
      ⟨"a", "x", "dx", "note", "v", some "General", some "f1", some "t1"⟩ := by
  have h := (C9_migration_amended [⟨"a", "x", "dx", "note", "v", none, none, none⟩]
    "f1" "t1").2.2.2.1 0 (by decide)
  exact h

/-- C7 counterexample: on a document whose folder holds two entities with the
same id `a` (reachable through import), `delete_entity` filters out BOTH,
while the claim says only the first matching entity is removed and every
other entity is left unchanged. -/
theorem C7_delete_first_counterexample :
    deleteEntity exDocDup "a" = (⟨[⟨"f1", "g", some "t", []⟩]⟩, true, true) ∧
    deleteEntity exDocDup "a" ≠
      (⟨[⟨"f1", "g", some "t",
          [⟨"a", "second", "dx", "note", "x", some "g", some "f1", some "t0"⟩]⟩]⟩, true, true) := by
  decide

/-- C7 (amended): `deleteEntity` removes EVERY entity whose id matches, in
every folder (which coincides with "the first matching entity" exactly when
ids are unique); it returns true iff some entity matched, rewrites storage
only in that case (otherwise the store state is identical), and never touches
the folder records themselves. -/
theorem C7_delete_entity_amended (d : Doc) (eid : String) :
    ((deleteEntity d eid).2.1 = true ↔ ∃ f ∈ d.folders, ∃ e ∈ f.entities, e.id = eid) ∧
    (deleteEntity d eid).2.2 = (deleteEntity d eid).2.1 ∧
    ((deleteEntity d eid).2.1 = false → (deleteEntity d eid).1 = d) ∧
    ((deleteEntity d eid).2.1 = true → (deleteEntity d eid).1.folders =
        d.folders.map (fun f => { f with entities := f.entities.filter (fun e => e.id != eid) })) ∧
    (deleteEntity d eid).1.folders.map (fun f => (f.id, f.name, f.created_at)) =
      d.folders.map (fun f => (f.id, f.name, f.created_at)) := by
  by_cases hc : d.folders.any (fun f => f.entities.any (fun e => e.id == eid))
  · have hex : ∃ f ∈ d.folders, ∃ e ∈ f.entities, e.id = eid := by
      simpa [List.any_eq_true] using hc
    refine ⟨by simp [deleteEntity, hc, hex], by simp [deleteEntity, hc], ?_, ?_, ?_⟩
    · intro hfalse
      simp [deleteEntity, hc] at hfalse
    · intro _
      simp [deleteEntity, hc]
    · simp [deleteEntity, hc, List.map_map]
  · have hnex : ¬∃ f ∈ d.folders, ∃ e ∈ f.entities, e.id = eid := by
      simpa [List.any_eq_true] using hc
    refine ⟨by simp [deleteEntity, hc, hnex], by simp [deleteEntity, hc], fun _ => ?_, ?_, ?_⟩
    · simp [deleteEntity, hc]
    · intro htrue
      simp [deleteEntity, hc] at htrue
    · simp [deleteEntity, hc]

/-- Witness for C7's amended statement at a concrete store and id. -/
theorem C7_delete_entity_amended_witness :
    (deleteEntity exDocDup "a").2.1 = true ∧
    (deleteEntity exDocDup "a").1.folders =
      exDocDup.folders.map
        (fun f => { f with entities := f.entities.filter (fun e => e.id != "a") }) := by
  have h := C7_delete_entity_amended exDocDup "a"
  have htrue : (deleteEntity exDocDup "a").2.1 = true := by decide
  exact ⟨htrue, h.2.2.2.1 htrue⟩

/-- C3: for any two folder names that are equal after trimming and
lower-casing (the first non-blank), resolving the first and then the second
yields the same folder index on the unchanged document — at most one folder
is ever created; concretely, adding `aws` then `AWS` from an empty store
leaves exactly one folder, stored under the first creation's casing `aws`,
holding both entities. -/
theorem C3_case_insensitive_folder_resolution :
    (∀ (d : Doc) (n1 n2 fresh1 now1 fresh2 now2 : String) (d1 : Doc) (i1 : ℕ),
      pyStrip n1 ≠ "" →
      pyLower (pyStrip n1) = pyLower (pyStrip n2) →
      getOrCreateFolder d n1 fresh1 now1 = .ok (d1, i1) →
      getOrCreateFolder d1 n2 fresh2 now2 = .ok (d1, i1)) ∧
    (addEntity ⟨[]⟩ exPayloadLower "e1" "f1" "t1" = .ok (exDocA,
        ⟨"e1", "AWS Key", "d1", "link", "k1", "aws", "f1", "t1"⟩) ∧
     addEntity exDocA exPayloadUpper "e2" "f2" "t2" = .ok (exDocB,
        ⟨"e2", "Note", "d2", "note", "k2", "AWS", "f1", "t2"⟩) ∧
     exDocB.folders.length = 1 ∧
     (exDocB.folders.getD 0 default).name = "aws" ∧
     (exDocB.folders.getD 0 default).entities.length = 2) := by
  constructor
  · intro d n1 n2 fresh1 now1 fresh2 now2 d1 i1 h1 heq hc
    have h2 : pyStrip n2 ≠ "" := by
      intro hx
      apply h1
      rw [← pyLower_eq_empty_iff, heq, hx]
      rfl
    obtain ⟨-, -, -, -, -, hcases⟩ := getOrCreateFolder_ok hc
    rcases hcases with ⟨rfl, hfind⟩ | ⟨hfold, rfl, hnone⟩
    · simp only [getOrCreateFolder, ← heq]
      rw [if_neg h2]
      simp [hfind]
    · simp only [getOrCreateFolder, ← heq]
      rw [if_neg h2, hfold]
      have happ : pyFindIdx (fun f => pyLower f.name == pyLower (pyStrip n1))
          (d.folders ++ [⟨fresh1, pyStrip n1, some now1, []⟩]) = some d.folders.length :=
        pyFindIdx_append_last (pyFindIdx_eq_none_iff.mp hnone) (by simp)
      simp only [happ]
  · exact ⟨by decide, by decide, by decide, by decide, by decide⟩

/-- Witness for C3's general statement at `aws` versus `  AWS `. -/
theorem C3_case_insensitive_folder_resolution_witness :
    pyStrip "aws" ≠ "" ∧ pyLower (pyStrip "aws") = pyLower (pyStrip " AWS ") ∧
    getOrCreateFolder (⟨[]⟩ : Doc) "aws" "f1" "t1" = .ok (⟨[⟨"f1", "aws", some "t1", []⟩]⟩, 0) ∧
    getOrCreateFolder ⟨[⟨"f1", "aws", some "t1", []⟩]⟩ " AWS " "f2" "t2" =
      .ok (⟨[⟨"f1", "aws", some "t1", []⟩]⟩, 0) := by
  refine ⟨by decide, by decide, by decide, ?_⟩
  exact C3_case_insensitive_folder_resolution.1 ⟨[]⟩ "aws" " AWS " "f1" "t1" "f2" "t2"
    ⟨[⟨"f1", "aws", some "t1", []⟩]⟩ 0 (by decide) (by decide) (by decide)

/-- C2 counterexample: in the reachable store `exDocB` (add `aws`, then add
`AWS`, which `add_entity` stores with the payload's verbatim folder name),
the export/import round trip rewrites the second entity's `folder_name` to
the folder's stored name `aws`, so `listFolders` is NOT content-equal before
and after — timestamps are passed through unchanged and are not the cause. -/
theorem C2_roundtrip_counterexample :
    addEntity ⟨[]⟩ exPayloadLower "e1" "f1" "t1" = .ok (exDocA,
      ⟨"e1", "AWS Key", "d1", "link", "k1", "aws", "f1", "t1"⟩) ∧
    addEntity exDocA exPayloadUpper "e2" "f2" "t2" = .ok (exDocB,
      ⟨"e2", "Note", "d2", "note", "k2", "AWS", "f1", "t2"⟩) ∧
    listFolders (importVault (exportVault exDocB "t3" "t4")) "t3" ≠ listFolders exDocB "t3" := by
  decide

/-- C2 (amended): the export/import round trip leaves `listFolders`
content-equal (independently of the re-derived hydration clock) PROVIDED the
denormalization invariant holds, i.e. every listed entity's
`folder_id`/`folder_name` already equal its containing folder's id and stored
name; in general the round trip is `listFolders` with every entity's folder
fields overwritten by the containing folder's values. -/
theorem C2_roundtrip_amended (d : Doc) (now exportedAt now' : String)
    (hinv : ∀ fw ∈ listFolders d now, ∀ e ∈ fw.entities,
      e.folder_id = fw.id ∧ e.folder_name = fw.name) :
    listFolders (importVault (exportVault d now exportedAt)) now' = listFolders d now := by
  show listFolders (replaceAll (listFolders d now)) now' = listFolders d now
  rw [listFolders_replaceAll]
  apply map_eq_self
  intro f hf
  have hent : f.entities.map
      (fun e => { e with folder_id := f.id, folder_name := f.name }) = f.entities := by
    apply map_eq_self
    intro e he
    obtain ⟨h1, h2⟩ := hinv f hf e he
    rw [← h1, ← h2]
  rw [hent]

/-- Witness for C2's amended statement on the invariant-respecting store
`exDocA`. -/
theorem C2_roundtrip_amended_witness :
    listFolders (importVault (exportVault exDocA "t3" "t4")) "t5" = listFolders exDocA "t3" :=
  C2_roundtrip_amended exDocA "t3" "t4" "t5" (by decide)

/-- C4: the Coordinator's search keeps the Index's relevance order (the
returned ids form a sublist of the hit ids), never returns two matches with
the same `entity_id`, returns only matches built via `mkSearchMatch` from an
entity the store currently resolves, and conversely keeps (exactly one match
for) every hit id that still resolves — so stale hits are dropped and
duplicates keep their first occurrence. -/
theorem C4_search_dedup_drop_order (d : Doc) (now : String) (hits : List (Option String)) :
    ((searchEntities d now hits).map SearchMatch.entity_id).Sublist (hits.filterMap id) ∧
    (searchEntities d now hits).Pairwise (fun a b => a.entity_id ≠ b.entity_id) ∧
    (∀ m ∈ searchEntities d now hits,
      ∃ e, getEntity d now m.entity_id = some e ∧ m = mkSearchMatch e) ∧
    (∀ eid e, some eid ∈ hits → eid ≠ "" → getEntity d now eid = some e →
      ∃ m ∈ searchEntities d now hits, m.entity_id = eid) := by
  refine ⟨searchLoop_sublist hits [], searchLoop_pairwise hits [], ?_, ?_⟩
  · intro m hm
    exact (searchLoop_mem hits [] m hm).2
  · intro eid e hmem hne hget
    exact searchLoop_complete hits [] eid e (by simp) hne hmem hget

/-- Witness for C4 on a concrete store with duplicate and stale hits. -/
theorem C4_search_dedup_drop_order_witness :
    (searchEntities exDocB "t9" [some "e2", some "e2", some "zz", none, some "e1"]).Pairwise
      (fun a b => a.entity_id ≠ b.entity_id) ∧
    ∃ m ∈ searchEntities exDocB "t9" [some "e2", some "e2", some "zz", none, some "e1"],
      m.entity_id = "e1" := by
  have h := C4_search_dedup_drop_order exDocB "t9"
    [some "e2", some "e2", some "zz", none, some "e1"]
  refine ⟨h.2.1, ?_⟩
  exact h.2.2.2 "e1" ⟨"e1", "AWS Key", "d1", "link", "k1", "aws", "f1", "t1"⟩
    (by decide) (by decide) (by decide)

/-- C6 counterexample: with the entity in folder `aws` and a payload whose
folder name is all whitespace, the trimmed payload name (`""`) differs
case-insensitively from `aws`, so the claim requires a move out of the source
folder — but `update_entity` keeps the entity in place (its move branch also
requires the trimmed name to be non-empty) and succeeds in-place. -/
theorem C6_update_move_counterexample :
    pyLower (pyStrip " ") ≠ pyLower "aws" ∧
    updateEntity exDocA "e1" ⟨"T2", "D2", "note", "X2", " "⟩ "f9" "t9" =
      .ok (⟨[⟨"f1", "aws", some "t1",
          [⟨"e1", "T2", "D2", "note", "X2", some "aws", some "f1", some "t1"⟩]⟩]⟩,
        ⟨"e1", "T2", "D2", "note", "X2", "aws", "f1", "t1"⟩) := by
  decide

/-- C6 (amended): `updateEntity` fails with `NotFound` when the id is absent;
when the payload's folder name is NON-EMPTY after trimming and differs
case-insensitively from the current folder's name, the entity is removed from
the source folder's list and appended (last) to the resolved-or-created
target folder, whose name matches the trimmed payload name
case-insensitively; otherwise (trimmed name blank, or equal ignoring case)
every field is rewritten in place at the same position with the folder fields
taken from the current folder; in all success cases the stored `created_at`
is preserved. -/
theorem C6_update_entity_amended (d : Doc) (eid : String) (p : EntityBase) (ffid now : String) :
    ((∀ f ∈ d.folders, ∀ e ∈ f.entities, e.id ≠ eid) →
      updateEntity d eid p ffid now = .error .notFound) ∧
    (∀ ci ei, findEntityLoc d.folders eid = some (ci, ei) →
      pyStrip p.folder_name ≠ "" →
      pyLower (pyStrip p.folder_name) ≠ pyLower (d.folders.getD ci default).name →
      ∃ (d' : Doc) (e' : Entity) (ti : ℕ),
        updateEntity d eid p ffid now = .ok (d', e') ∧
        ti < d'.folders.length ∧ ti ≠ ci ∧
        (d'.folders.getD ci default).id = (d.folders.getD ci default).id ∧
        (d'.folders.getD ci default).name = (d.folders.getD ci default).name ∧
        (d'.folders.getD ci default).entities =
          (d.folders.getD ci default).entities.eraseIdx ei ∧
        (d'.folders.getD ti default).entities.getLast? = some (rawOfEntity e') ∧
        pyLower (d'.folders.getD ti default).name = pyLower (pyStrip p.folder_name) ∧
        e'.id = eid ∧ e'.title = p.title ∧ e'.description = p.description ∧
        e'.data_type = p.data_type ∧ e'.data = p.data ∧
        e'.folder_id = (d'.folders.getD ti default).id ∧
        e'.folder_name = (d'.folders.getD ti default).name ∧
        e'.created_at =
          ((d.folders.getD ci default).entities.getD ei default).created_at.getD now) ∧
    (∀ ci ei, findEntityLoc d.folders eid = some (ci, ei) →
      (pyStrip p.folder_name = "" ∨
        pyLower (pyStrip p.folder_name) = pyLower (d.folders.getD ci default).name) →
      ∃ e' : Entity,
        updateEntity d eid p ffid now =
          .ok (⟨d.folders.set ci { d.folders.getD ci default with
                  entities := (d.folders.getD ci default).entities.set ei (rawOfEntity e') }⟩,
            e') ∧
        e'.id = eid ∧ e'.title = p.title ∧ e'.description = p.description ∧
        e'.data_type = p.data_type ∧ e'.data = p.data ∧
        e'.folder_name = (d.folders.getD ci default).name ∧
        e'.folder_id = (d.folders.getD ci default).id ∧
        e'.created_at =
          ((d.folders.getD ci default).entities.getD ei default).created_at.getD now) := by
  refine ⟨?_, ?_, ?_⟩
  · intro hall
    have hnone : findEntityLoc d.folders eid = none := findEntityLoc_eq_none_iff.mpr hall
    simp [updateEntity, hnone]
  · intro ci ei hloc h1 h2
    obtain ⟨hci, -⟩ := findEntityLoc_some hloc
    cases hg : getOrCreateFolder d (pyStrip p.folder_name) ffid now with
    | error err =>
      exact absurd (pyStrip_pyStrip_empty (getOrCreateFolder_error hg)) h1
    | ok pr =>
      obtain ⟨d1, ti⟩ := pr
      obtain ⟨-, hti, hnamei, hle, hstable, -⟩ := getOrCreateFolder_ok hg
      rw [pyStrip_idem] at hnamei
      have hcf : d1.folders.getD ci default = d.folders.getD ci default := hstable ci hci
      have htine : ti ≠ ci := by
        intro hcontra
        subst hcontra
        rw [hcf] at hnamei
        exact h2 hnamei.symm
      have hcid1 : ci < d1.folders.length := Nat.lt_of_lt_of_le hci hle
      have hmove := updateEntity_move hloc h1 h2 hg
      have htf : (d1.folders.set ci { d.folders.getD ci default with
          entities := (d.folders.getD ci default).entities.eraseIdx ei }).getD ti default =
          d1.folders.getD ti default := getD_set_ne (fun hc => htine hc.symm) _
      have htiset : ti < (d1.folders.set ci { d.folders.getD ci default with
          entities := (d.folders.getD ci default).entities.eraseIdx ei }).length := by
        simpa using hti
      refine ⟨_, _, ti, hmove, ?_, htine, ?_, ?_, ?_, ?_, ?_, rfl, rfl, rfl, rfl, rfl,
        ?_, ?_, rfl⟩
      · simpa using hti
      · rw [getD_set_ne htine, getD_set_self hcid1]
      · rw [getD_set_ne htine, getD_set_self hcid1]
      · rw [getD_set_ne htine, getD_set_self hcid1]
      · rw [getD_set_self htiset]
        exact List.getLast?_concat _
      · rw [getD_set_self htiset, htf]
        exact hnamei
      · rw [getD_set_self htiset, htf]
      · rw [getD_set_self htiset, htf]
  · intro ci ei hloc hcond
    exact ⟨_, updateEntity_stay hloc hcond, rfl, rfl, rfl, rfl, rfl, rfl, rfl, rfl⟩

/-- Witness for C6's amended statement: missing id, an in-place (case-only)
update, and a move to a freshly created folder, on concrete stores. -/
theorem C6_update_entity_amended_witness :
    updateEntity exDocA "nope" ⟨"T", "D", "note", "X", "aws"⟩ "f9" "t9" = .error .notFound ∧
    (∃ e' : Entity,
      updateEntity exDocA "e1" ⟨"T2", "D2", "note", "X2", " AWS "⟩ "f9" "t9" =
        .ok (⟨exDocA.folders.set 0 { exDocA.folders.getD 0 default with
                entities := (exDocA.folders.getD 0 default).entities.set 0 (rawOfEntity e') }⟩,
          e') ∧
      e'.id = "e1" ∧ e'.title = "T2" ∧ e'.description = "D2" ∧
      e'.data_type = "note" ∧ e'.data = "X2" ∧
      e'.folder_name = (exDocA.folders.getD 0 default).name ∧
      e'.folder_id = (exDocA.folders.getD 0 default).id ∧
      e'.created_at =
        ((exDocA.folders.getD 0 default).entities.getD 0 default).created_at.getD "t9") ∧
    (∃ (d' : Doc) (e' : Entity) (ti : ℕ),
      updateEntity exDocA "e1" ⟨"T2", "D2", "note", "X2", "work"⟩ "f9" "t9" = .ok (d', e') ∧
      ti < d'.folders.length ∧ ti ≠ 0 ∧
      (d'.folders.getD 0 default).entities =
        (exDocA.folders.getD 0 default).entities.eraseIdx 0 ∧
      (d'.folders.getD ti default).entities.getLast? = some (rawOfEntity e')) := by
  refine ⟨?_, ?_, ?_⟩
  · exact (C6_update_entity_amended exDocA "nope" ⟨"T", "D", "note", "X", "aws"⟩ "f9" "t9").1
      (by decide)
  · exact (C6_update_entity_amended exDocA "e1" ⟨"T2", "D2", "note", "X2", " AWS "⟩
      "f9" "t9").2.2 0 0 (by decide) (Or.inr (by decide))
  · obtain ⟨d', e', ti, heq, hlt, hne, -, -, herase, hlast, -, -, -, -, -, -, -, -, -⟩ :=
      (C6_update_entity_amended exDocA "e1" ⟨"T2", "D2", "note", "X2", "work"⟩
        "f9" "t9").2.1 0 0 (by decide) (by decide) (by decide)
    exact ⟨d', e', ti, heq, hlt, hne, herase, hlast⟩

end VaultFind
